import Mathlib

/-!
Verification of the slothsonic playback/queue engine (`src/lib/player.ts`).

The TypeScript module keeps a single mutable `playerState : PlayerState`,
one `HTMLAudioElement` transport, and two module-level scrobble markers
(`scrobbledTrackId`, `nowPlayingReported`).  We embed that mutable cell as an
explicit `SysState` record and each exported action (and each transport
callback registered in `getAudio`) as a state-transition function.

`playSong` is `async`: it updates state synchronously, then suspends on
`getStreamUrl`, and its continuation runs when the resolution settles.  We
therefore split it into `playSongStart` (the synchronous prefix before the
`await`), `resolveOkStep` (the continuation on successful resolution and
playback start), `playFailStep` (resolution succeeded but `play()` rejected)
and `resolveErrStep` (the `catch` block: resolution failed).  Interleavings of
several in-flight `playSong` calls are then ordinary sequences of these steps.

JavaScript numbers are modelled as `ℚ` (the spec only involves exact decimal
arithmetic) and the array index as `Int` (the code stores `-1`).
-/

set_option maxHeartbeats 1000000

namespace Slothsonic

/-- Modelled from the spec: the external catalog `Song`/Track record
(`src/lib/api.ts` is not part of the sources given; the spec §3 describes it:
identity, display fields, optional duration and cover art, starred flag).
The engine itself only ever reads `id`. -/
structure Song where
  id : String
  title : String
  artist : String
  album : String
  duration : Option ℚ
  coverArt : Option String
  starred : Bool
deriving DecidableEq

/-- `PlayerState` from `player.ts` lines 5–14. -/
structure PlayerState where
  currentTrack : Option Song
  queue : List Song
  queueIndex : Int
  isPlaying : Bool
  volume : ℚ
  currentTime : ℚ
  duration : ℚ
  isLoading : Bool
deriving DecidableEq

/-- `initialState` from `player.ts` lines 16–25. -/
def initialState : PlayerState :=
  { currentTrack := none
    queue := []
    queueIndex := -1
    isPlaying := false
    volume := 1
    currentTime := 0
    duration := 0
    isLoading := false }

/-- The transport (`HTMLAudioElement`): source URL (`""` = no source, matching
the falsiness test `if (audioEl.src)`), current position, duration, volume and
paused flag. -/
structure Audio where
  src : String
  ctime : ℚ
  duration : ℚ
  volume : ℚ
  paused : Bool
deriving DecidableEq

def initialAudio : Audio :=
  { src := "", ctime := 0, duration := 0, volume := 1, paused := true }

/-- The module-level mutable state of `player.ts`: the observable
`playerState`, the audio element, and the two scrobble markers
(lines 27–33). -/
structure SysState where
  ps : PlayerState
  audio : Audio
  scrobbledTrackId : Option String
  nowPlayingReported : Option String
deriving DecidableEq

def initSys : SysState :=
  { ps := initialState
    audio := initialAudio
    scrobbledTrackId := none
    nowPlayingReported := none }

/-- JavaScript array indexing `l[i]` with an `Int` index: out-of-range or
negative indices yield `undefined`, embedded as `none`. -/
def listGetI {α : Type} (l : List α) (i : Int) : Option α :=
  if 0 ≤ i then l[i.toNat]? else none

/-- `Math.min` on exact (rational) JS numbers.  Written with `if` rather than
the lattice `⊓` so that concrete runs reduce inside the kernel. -/
def qmin (a b : ℚ) : ℚ := if a ≤ b then a else b

/-- `Math.max` on exact (rational) JS numbers. -/
def qmax (a b : ℚ) : ℚ := if b ≤ a then a else b

/-- `q * 0.5` (exact), written via `mkRat` so that concrete runs reduce
inside the kernel. -/
def halfQ (q : ℚ) : ℚ := mkRat q.num (q.den * 2)

/-- Setting `currentTime` on a media element: the transport clamps the seek
target into `[0, duration]` (HTML media element seek semantics; the TS code
assigns the raw time and relies on this transport behavior). -/
def audioSetCurrentTime (a : Audio) (t : ℚ) : Audio :=
  { a with ctime := qmax 0 (qmin a.duration t) }

/-- `seek(time)` (`player.ts` lines 202–207): assign the transport position
only when a source is loaded. -/
def seekStep (σ : SysState) (t : ℚ) : SysState :=
  if σ.audio.src ≠ "" then { σ with audio := audioSetCurrentTime σ.audio t } else σ

/-- `setVolume(volume)` (`player.ts` lines 209–214): clamp to `[0,1]`, apply
to transport and state. -/
def setVolumeStep (σ : SysState) (v : ℚ) : SysState :=
  let c := qmax 0 (qmin 1 v)
  { σ with audio := { σ.audio with volume := c }
           ps := { σ.ps with volume := c } }

/-- The synchronous prefix of `playSong` (`player.ts` lines 109–124), with the
track as an `Option` so that the JS corner where an internal caller passes
`queue[i] = undefined` is representable: reset `scrobbledTrackId`, then set
`currentTrack`, `queue` (default `[song]`), `queueIndex` (default `0`) and
`isLoading`.  (With `os = none` the callers below always pass the queue
explicitly, so the `[song]` default never materializes; we use `[]` there.) -/
def playSongStartO (os : Option Song) (q : Option (List Song)) (i : Option Int)
    (σ : SysState) : SysState :=
  { σ with scrobbledTrackId := none
           ps := { σ.ps with
                   currentTrack := os
                   queue := q.getD (os.elim [] (fun s => [s]))
                   queueIndex := i.getD 0
                   isLoading := true } }

/-- The synchronous prefix of `playSong(song, queue?, startIndex?)`. -/
def playSongStart (s : Song) (q : Option (List Song)) (i : Option Int)
    (σ : SysState) : SysState :=
  playSongStartO (some s) q i σ

/-- The continuation of `playSong` after `getStreamUrl` resolves to `url` and
`audioEl.play()` succeeds (`player.ts` lines 127–137): assign the source
(which resets the transport position and starts playback) and report
"now playing" once per track id. -/
def resolveOkStep (s : Song) (url : String) (σ : SysState) : SysState :=
  { σ with audio := { σ.audio with src := url, ctime := 0, paused := false }
           nowPlayingReported :=
             if σ.nowPlayingReported = some s.id then σ.nowPlayingReported
             else some s.id }

/-- The `catch` block of `playSong` (`player.ts` lines 138–141) when
`getStreamUrl` rejects (or `song.id` throws): log and clear `isLoading`.
Nothing is thrown to the caller. -/
def resolveErrStep (σ : SysState) : SysState :=
  { σ with ps := { σ.ps with isLoading := false } }

/-- The `catch` block of `playSong` when the source was assigned but
`audioEl.play()` rejected: the source is already set, playback never started,
and `isLoading` is cleared. -/
def playFailStep (url : String) (σ : SysState) : SysState :=
  { σ with audio := { σ.audio with src := url, ctime := 0 }
           ps := { σ.ps with isLoading := false } }

/-- `pause()` (`player.ts` lines 158–160): pause the transport.  The `pause`
DOM event then clears `isPlaying` (see `pauseEvStep`). -/
def pauseStep (σ : SysState) : SysState :=
  { σ with audio := { σ.audio with paused := true } }

/-- `play()` (`player.ts` lines 162–167): resume only when a source is
loaded. -/
def playStep (σ : SysState) : SysState :=
  if σ.audio.src ≠ "" then { σ with audio := { σ.audio with paused := false } } else σ

/-- `togglePlayPause()` (`player.ts` lines 149–156). -/
def togglePlayPauseStep (σ : SysState) : SysState :=
  if σ.ps.isPlaying then pauseStep σ else playStep σ

/-- `playNext()` (`player.ts` lines 169–181): advance to `queueIndex + 1` if
it is still inside the queue (starting the corresponding `playSong`),
otherwise stop: `isPlaying := false` and pause the transport.  The
`listGetI … = none` branch is the JS corner `queue[nextIndex] = undefined`
(only possible for `nextIndex < 0` here): `playSong(undefined, …)` runs its
synchronous prefix and then throws on `song.id`, landing in the `catch`. -/
def playNextStep (σ : SysState) : SysState :=
  if σ.ps.queue = [] then σ
  else
    let nextIndex := σ.ps.queueIndex + 1
    if nextIndex < (σ.ps.queue.length : Int) then
      match listGetI σ.ps.queue nextIndex with
      | some s => playSongStart s (some σ.ps.queue) (some nextIndex) σ
      | none => resolveErrStep (playSongStartO none (some σ.ps.queue) (some nextIndex) σ)
    else
      pauseStep { σ with ps := { σ.ps with isPlaying := false } }

/-- `playPrevious()` (`player.ts` lines 183–200): restart the current track
when more than 3 seconds in; otherwise step back to `queueIndex - 1` when that
is still an index, else restart. -/
def playPreviousStep (σ : SysState) : SysState :=
  if σ.ps.queue = [] then σ
  else if 3 < σ.ps.currentTime then seekStep σ 0
  else
    let prevIndex := σ.ps.queueIndex - 1
    if 0 ≤ prevIndex then
      match listGetI σ.ps.queue prevIndex with
      | some s => playSongStart s (some σ.ps.queue) (some prevIndex) σ
      | none => resolveErrStep (playSongStartO none (some σ.ps.queue) (some prevIndex) σ)
    else seekStep σ 0

/-- `playAlbum(songs, startIndex)` (`player.ts` lines 144–147): no-op on an
empty list, else delegate to `playSong(songs[startIndex], songs, startIndex)`.
An out-of-range `startIndex` passes `undefined` as the song (JS corner). -/
def playAlbumStep (songs : List Song) (i : Int) (σ : SysState) : SysState :=
  if songs = [] then σ
  else
    match listGetI songs i with
    | some s => playSongStart s (some songs) (some i) σ
    | none => resolveErrStep (playSongStartO none (some songs) (some i) σ)

/-- `addToQueue(songs)` (`player.ts` lines 216–220): append to the tail. -/
def addToQueueStep (σ : SysState) (songs : List Song) : SysState :=
  { σ with ps := { σ.ps with queue := σ.ps.queue ++ songs } }

/-- `clearQueue()` (`player.ts` lines 222–227): pause the transport, drop its
source, and reset the whole `PlayerState` to `initialState`.  The TS function
returns nothing (`undefined`). -/
def clearQueueStep (σ : SysState) : SysState :=
  { σ with audio := { σ.audio with paused := true, src := "" }
           ps := initialState }

/-- The `timeupdate` handler (`player.ts` lines 52–74): the transport reports
position `t`; the state's `currentTime` is updated, then the submission
scrobble fires iff a track is loaded, its id is not the already-scrobbled id,
the transport duration is positive, and `t` has reached
`min 240 (duration * 0.5)`.  The returned `Bool` records whether a submission
report was emitted.  (The handler reads `currentTrack`, `scrobbledTrackId` and
the transport duration after updating `currentTime`; those fields are not
touched by that update, so they are read from the incoming state here.) -/
def timeupdateStep (σ : SysState) (t : ℚ) : SysState × Bool :=
  match σ.ps.currentTrack with
  | some tr =>
      if some tr.id ≠ σ.scrobbledTrackId ∧ 0 < σ.audio.duration then
        if qmin 240 (halfQ σ.audio.duration) ≤ t then
          ({ σ with audio := { σ.audio with ctime := t }
                    ps := { σ.ps with currentTime := t }
                    scrobbledTrackId := some tr.id }, true)
        else
          ({ σ with audio := { σ.audio with ctime := t }
                    ps := { σ.ps with currentTime := t } }, false)
      else
        ({ σ with audio := { σ.audio with ctime := t }
                  ps := { σ.ps with currentTime := t } }, false)
  | none =>
      ({ σ with audio := { σ.audio with ctime := t }
                ps := { σ.ps with currentTime := t } }, false)

/-- The `durationchange` handler (`player.ts` lines 76–78). -/
def durationchangeStep (σ : SysState) (d : ℚ) : SysState :=
  { σ with audio := { σ.audio with duration := d }
           ps := { σ.ps with duration := d } }

/-- The `playing` handler (`player.ts` lines 84–86). -/
def playingEvStep (σ : SysState) : SysState :=
  { σ with ps := { σ.ps with isPlaying := true, isLoading := false } }

/-- The `pause` handler (`player.ts` lines 88–90). -/
def pauseEvStep (σ : SysState) : SysState :=
  { σ with ps := { σ.ps with isPlaying := false } }

/-- The `waiting` handler (`player.ts` lines 92–94). -/
def waitingEvStep (σ : SysState) : SysState :=
  { σ with ps := { σ.ps with isLoading := true } }

/-- The `canplay` handler (`player.ts` lines 96–98). -/
def canplayEvStep (σ : SysState) : SysState :=
  { σ with ps := { σ.ps with isLoading := false } }

/-- The `error` handler (`player.ts` lines 100–103). -/
def errorEvStep (σ : SysState) : SysState :=
  { σ with ps := { σ.ps with isLoading := false, isPlaying := false } }

/-- One interaction with the engine: an exported action called by the UI
(with arbitrary arguments), the settlement of a suspended `playSong`
resolution (possibly a stale one), or a transport callback.  `evEnded` invokes
`playNext` (`player.ts` lines 80–82). -/
inductive Act where
  | playSong (s : Song) (q : Option (List Song)) (i : Option Int)
  | resolveOk (s : Song) (url : String)
  | resolvePlayFail (url : String)
  | resolveErr
  | playAlbum (songs : List Song) (i : Int)
  | togglePlayPause
  | doPlay
  | doPause
  | playNext
  | playPrevious
  | seek (t : ℚ)
  | setVolume (v : ℚ)
  | addToQueue (songs : List Song)
  | clearQueue
  | evTimeupdate (t : ℚ)
  | evDurationchange (d : ℚ)
  | evEnded
  | evPlaying
  | evPause
  | evWaiting
  | evCanplay
  | evError
deriving DecidableEq

def step (σ : SysState) : Act → SysState
  | .playSong s q i => playSongStart s q i σ
  | .resolveOk s url => resolveOkStep s url σ
  | .resolvePlayFail url => playFailStep url σ
  | .resolveErr => resolveErrStep σ
  | .playAlbum songs i => playAlbumStep songs i σ
  | .togglePlayPause => togglePlayPauseStep σ
  | .doPlay => playStep σ
  | .doPause => pauseStep σ
  | .playNext => playNextStep σ
  | .playPrevious => playPreviousStep σ
  | .seek t => seekStep σ t
  | .setVolume v => setVolumeStep σ v
  | .addToQueue songs => addToQueueStep σ songs
  | .clearQueue => clearQueueStep σ
  | .evTimeupdate t => (timeupdateStep σ t).1
  | .evDurationchange d => durationchangeStep σ d
  | .evEnded => playNextStep σ
  | .evPlaying => playingEvStep σ
  | .evPause => pauseEvStep σ
  | .evWaiting => waitingEvStep σ
  | .evCanplay => canplayEvStep σ
  | .evError => errorEvStep σ

/-- Run a sequence of interactions from a state. -/
def run (σ : SysState) (acts : List Act) : SysState := acts.foldl step σ

/-- Concrete songs used in witnesses and counterexamples. -/
def songA : Song := ⟨"a", "Alpha", "Art", "Alb", some 300, none, false⟩

def songB : Song := ⟨"b", "Beta", "Art", "Alb", some 200, none, false⟩

def songC : Song := ⟨"c", "Gamma", "Art", "Alb", none, none, false⟩

/-!
### Spec-modelled operations

The UI (`src/components/Player.tsx`) destructures `shuffle`, `repeat`,
`toggleShuffle`, `toggleRepeat` from `usePlayer()`, calls
`restoreQueueState(previousState)`, and reads `clearQueue()`'s return value as
a `{ previousQueue, previousIndex }` snapshot — so the repository has a
repeat-aware, snapshot-returning version of the queue engine whose
implementation is not among the sources given (only this caller is).  The
definitions below model those missing parts from the spec (§4.1, §4.2).
-/

/-- Modelled from the spec: `repeatMode: enum {Off, All, One}` (§3); absent
from the given `player.ts`, used by the caller `Player.tsx`. -/
inductive RepeatMode where
  | off
  | all
  | one
deriving DecidableEq

/-- Modelled from the spec (§4.1 `computeNext`): `One` replays the current
index; else advance sequentially; at the tail, `All` wraps to `0` and `Off`
yields the exhausted sentinel (`none`). -/
def computeNext (current len : Int) (r : RepeatMode) : Option Int :=
  if r = .one then some current
  else if current + 1 < len then some (current + 1)
  else if r = .all then some 0
  else none

/-- Modelled from the spec (§4.2 `playNext` with §4.1 policy): consult
`computeNext`; when exhausted, stop the transport and keep `currentTrack` for
display; otherwise start `playSong` for the resolved index over the unchanged
queue.  Its implementation is absent from the given `player.ts`; the version
there realizes exactly the `Off` column. -/
def specPlayNext (σ : SysState) (r : RepeatMode) : SysState :=
  if σ.ps.queue = [] then σ
  else
    match computeNext σ.ps.queueIndex (σ.ps.queue.length : Int) r with
    | some n =>
        match listGetI σ.ps.queue n with
        | some s => playSongStart s (some σ.ps.queue) (some n) σ
        | none => σ
    | none => pauseStep { σ with ps := { σ.ps with isPlaying := false } }

/-- The source `playPrevious` consults no repeat state at all; pairing it with
an ambient repeat mode expresses that its result is repeat-independent. -/
def playPreviousR (σ : SysState) (r : RepeatMode) : SysState × RepeatMode :=
  (playPreviousStep σ, r)

/-- Modelled from the spec: the `QueueSnapshot` value object (§3), the shape
the caller `Player.tsx` reads from `clearQueue()`'s return value. -/
structure QueueSnapshot where
  previousQueue : List Song
  previousIndex : Int
deriving DecidableEq

/-- Modelled from the spec (§4.2 `clearQueue`): capture a snapshot of the
current queue and index, stop the transport, reset `PlayerState` to defaults,
and return the snapshot — `none` (undefined) when the queue was already
empty.  Its implementation is absent from the given `player.ts` (the version
there performs the same stop/reset but returns nothing). -/
def specClearQueue (σ : SysState) : Option QueueSnapshot × SysState :=
  if σ.ps.queue = [] then (none, clearQueueStep σ)
  else (some ⟨σ.ps.queue, σ.ps.queueIndex⟩, clearQueueStep σ)

/-- Modelled from the spec (§4.2 `restoreQueueState`): reinstate `queue` and
`queueIndex` from the snapshot without resuming playback (load-not-play); the
transport is not touched.  Absent from the given `player.ts`; called by
`Player.tsx`. -/
def restoreQueueState (snap : QueueSnapshot) (σ : SysState) : SysState :=
  { σ with ps := { σ.ps with queue := snap.previousQueue
                             queueIndex := snap.previousIndex } }

/-- The `undefined`-returning `clearQueue` actually present in `player.ts`
(lines 222–227), with its (absent) return value made explicit: a TS `void`
function returns `undefined`, i.e. `none`. -/
def clearQueueRet (σ : SysState) : Option QueueSnapshot × SysState :=
  (none, clearQueueStep σ)

/-!
### Scrobble-emission bookkeeping for C2/C9
-/

/-- Fold `timeupdateStep` over a list of reported positions, recording for
each update whether the submission scrobble fired. -/
def runFlags (σ : SysState) : List ℚ → List Bool
  | [] => []
  | t :: ts => (timeupdateStep σ t).2 :: runFlags (timeupdateStep σ t).1 ts

/-- Mark only the first `true` of a boolean trace: the expected emission
pattern "exactly once, at the first update reaching the threshold". -/
def markFirst : List Bool → List Bool
  | [] => []
  | b :: bs => if b then true :: bs.map (fun _ => false) else false :: markFirst bs

/-!
### Concrete songs, states and traces used in witnesses and counterexamples
-/

/-- Concrete state for the C7 witness: `songA` loaded with duration 300. -/
def seekSt : SysState :=
  run initSys [Act.playSong songA none none, Act.resolveOk songA "https-a",
    Act.evDurationchange 300]

/-- State after `playSong(A)`, `playSong(B)`, and B's resolution completing,
while A's resolution is still in flight. -/
def raceAfterB : SysState :=
  resolveOkStep songB "https-b"
    (playSongStart songB none none (playSongStart songA none none initSys))

/-- State after A's resolution then completes late. -/
def raceFinal : SysState := resolveOkStep songA "https-a" raceAfterB

/-- State with a track playing, then `playSong(B)` issued whose resolution
will fail. -/
def failPre : SysState :=
  run initSys [Act.playSong songA none none, Act.resolveOk songA "https-a",
    Act.evPlaying]

def failPost : SysState := run failPre [Act.playSong songB none none, Act.resolveErr]

/-- State after playing `songA` to past its scrobble threshold: the
submission for `songA` has been recorded. -/
def scrobAfterPlay : SysState :=
  run initSys [Act.playSong songA none none, Act.resolveOk songA "https-a",
    Act.evDurationchange 300, Act.evTimeupdate 160]

/-- `scrobAfterPlay` after replaying the *same* song and its resolution. -/
def scrobReplay : SysState :=
  run scrobAfterPlay [Act.playSong songA none none, Act.resolveOk songA "https-a",
    Act.evDurationchange 300]

/-- Concrete state for the C2 witness: `songA` loaded, duration 300. -/
def scrobQ : SysState :=
  run initSys [Act.playSong songA none none, Act.resolveOk songA "https-a",
    Act.evDurationchange 300]

/-- Concrete two-track state for the C4 witness. -/
def clearPre : SysState :=
  run initSys [Act.playSong songA (some [songA, songB]) (some 0)]

/-- Concrete state at the last index of a two-track queue (C5 witness). -/
def lastIdxSt : SysState :=
  run initSys [Act.playSong songB (some [songA, songB]) (some 1)]

/-- Concrete three-track state at index 2 with `currentTime = 1` (C6
witness). -/
def prevSt : SysState :=
  run initSys [Act.playSong songC (some [songA, songB, songC]) (some 2),
    Act.resolveOk songC "https-c", Act.evTimeupdate 1]

/-- A one-step trace with a degenerate `startIndex = -1`. -/
def badTrace : List Act := [Act.playSong songA none (some (-1))]

/-- A representative well-formed trace exercising most actions. -/
def goodTrace : List Act :=
  [Act.playSong songA (some [songA, songB]) (some 0),
   Act.resolveOk songA "https-a", Act.evDurationchange 300,
   Act.evTimeupdate 120, Act.evPlaying, Act.playNext, Act.setVolume 2,
   Act.addToQueue [songC], Act.playPrevious, Act.clearQueue,
   Act.playAlbum [songB, songC] 1]

/-- Well-formedness of an interaction's arguments: `playSong` must be given a
start index that is in bounds of the effective queue and names the given song
(this is how every internal caller and the UI invoke it); `playAlbum` must be
given an in-bounds start index (or an empty list, a no-op).  All other
interactions carry no such obligation. -/
def goodAct : Act → Bool
  | .playSong s q i =>
      match listGetI (q.getD [s]) (i.getD 0) with
      | some u => decide (u.id = s.id)
      | none => false
  | .playAlbum songs i => songs.isEmpty || (listGetI songs i).isSome
  | _ => true

/-- The claimed invariant over `PlayerState`: the track/cursor null-emptiness
correspondence, volume clamped into `[0,1]`, and a valid cursor naming the
current track whenever one is loaded. -/
def Inv (σ : SysState) : Prop :=
  (σ.ps.currentTrack = none ↔ σ.ps.queueIndex = -1) ∧
  0 ≤ σ.ps.volume ∧ σ.ps.volume ≤ 1 ∧
  ∀ t : Song, σ.ps.currentTrack = some t →
    0 ≤ σ.ps.queueIndex ∧ σ.ps.queueIndex < (σ.ps.queue.length : Int) ∧
    ∃ u, listGetI σ.ps.queue σ.ps.queueIndex = some u ∧ u.id = t.id

/-!
### Helper lemmas
-/

theorem listGetI_bounds {α : Type} {l : List α} {i : Int} {u : α}
    (h : listGetI l i = some u) : 0 ≤ i ∧ i < (l.length : Int) := by
  unfold listGetI at h
  split at h
  · rename_i h0
    have hlt : i.toNat < l.length := (List.getElem?_eq_some.mp h).1
    refine ⟨h0, ?_⟩
    rw [← Int.toNat_of_nonneg h0]
    exact_mod_cast hlt
  · exact absurd h (by simp)

theorem listGetI_isSome {α : Type} (l : List α) (i : Int)
    (h0 : 0 ≤ i) (h1 : i < (l.length : Int)) : ∃ u, listGetI l i = some u := by
  have hlt : i.toNat < l.length := by omega
  refine ⟨l[i.toNat], ?_⟩
  unfold listGetI
  rw [if_pos h0]
  exact List.getElem?_eq_getElem hlt

theorem listGetI_append {α : Type} {l : List α} (m : List α) {i : Int} {u : α}
    (h : listGetI l i = some u) : listGetI (l ++ m) i = some u := by
  obtain ⟨h0, h1⟩ := listGetI_bounds h
  unfold listGetI at h ⊢
  rw [if_pos h0] at h ⊢
  have hlt : i.toNat < l.length := (List.getElem?_eq_some.mp h).1
  rw [List.getElem?_append_left hlt]
  exact h

theorem qmin_eq_min (a b : ℚ) : qmin a b = min a b := (min_def a b).symm

theorem qmax_eq_max (a b : ℚ) : qmax a b = max a b := by
  unfold qmax
  rcases le_or_lt b a with h | h
  · rw [if_pos h, max_eq_left h]
  · rw [if_neg (not_le.mpr h), max_eq_right h.le]

theorem halfQ_eq_div (q : ℚ) : halfQ q = q / 2 := by
  rw [halfQ, Rat.mkRat_eq_div]
  push_cast
  rw [← div_div, Rat.num_div_den]

theorem scrobbleThreshold_eq (d : ℚ) :
    qmin 240 (halfQ d) = min 240 (d / 2) := by
  rw [qmin_eq_min, halfQ_eq_div]

@[simp]
theorem resolveOk_ps (s : Song) (url : String) (σ : SysState) :
    (resolveOkStep s url σ).ps = σ.ps := rfl

@[simp]
theorem resolveOk_audio (s : Song) (url : String) (σ : SysState) :
    (resolveOkStep s url σ).audio =
      { σ.audio with src := url, ctime := 0, paused := false } := rfl

@[simp]
theorem resolveOk_scrobbled (s : Song) (url : String) (σ : SysState) :
    (resolveOkStep s url σ).scrobbledTrackId = σ.scrobbledTrackId := rfl

/-!
### Claims C10, C7, C1, C8
-/

/-- C10: `clearQueue` resets the state's `volume` field to `1` (the initial
default), discarding any value previously set via `setVolume`, and resets all
other `PlayerState` fields to the initial defaults. -/
theorem clearQueue_resets_volume_to_default (σ : SysState) (v : ℚ) :
    (clearQueueStep σ).ps = initialState ∧
    (clearQueueStep (setVolumeStep σ v)).ps.volume = 1 ∧
    initialState.volume = 1 :=
  ⟨rfl, rfl, rfl⟩

/-- C7: `seek(time)` applies a position clamped into `[0, duration]` (and the
exact requested position when it is already in range), is a no-op when no
source is loaded, and never changes the playback status (the whole
`PlayerState`, in particular `isPlaying`/`isLoading`, is untouched). -/
theorem seek_clamps_and_preserves_status (σ : SysState) (t : ℚ) :
    (σ.audio.src ≠ "" →
      0 ≤ (seekStep σ t).audio.ctime ∧
      (0 ≤ σ.audio.duration → (seekStep σ t).audio.ctime ≤ σ.audio.duration) ∧
      (0 ≤ t → t ≤ σ.audio.duration → (seekStep σ t).audio.ctime = t)) ∧
    (σ.audio.src = "" → seekStep σ t = σ) ∧
    (seekStep σ t).ps = σ.ps := by
  refine ⟨?_, ?_, ?_⟩
  · intro h
    simp only [seekStep, if_pos h, audioSetCurrentTime, qmax_eq_max, qmin_eq_min]
    refine ⟨le_max_left 0 _, fun hd => ?_, fun h0 h1 => ?_⟩
    · exact max_le hd (min_le_left _ _)
    · rw [min_eq_right h1]
      exact max_eq_right h0
  · intro h
    simp [seekStep, h]
  · unfold seekStep
    split <;> rfl

/-- C7 witness: seeking to 500 on a loaded 300-second track stays in range
and leaves the `PlayerState` untouched. -/
theorem seek_clamps_witness :
    0 ≤ (seekStep seekSt 500).audio.ctime ∧
    (seekStep seekSt 500).audio.ctime ≤ seekSt.audio.duration ∧
    (seekStep seekSt 500).ps = seekSt.ps :=
  ⟨((seek_clamps_and_preserves_status seekSt 500).1 (by decide)).1,
   ((seek_clamps_and_preserves_status seekSt 500).1 (by decide)).2.1 (by decide),
   (seek_clamps_and_preserves_status seekSt 500).2.2⟩

/-- C1 counterexample: with `playSong(A)` then `playSong(B)` issued before A's
stream-URL resolution completes, A's later completion is **not** discarded:
it overwrites the transport source set for B (`https-b` becomes `https-a`)
and changes the state, though `currentTrack` does remain B.  There is no
generation token in `playSong` (`player.ts` lines 109–142). -/
theorem stale_resolution_overwrites_transport :
    raceAfterB.audio.src = "https-b" ∧
    raceFinal.ps.currentTrack = some songB ∧
    raceFinal.audio.src = "https-a" ∧
    raceFinal ≠ raceAfterB := by
  refine ⟨rfl, rfl, rfl, ?_⟩
  decide

/-- C1 amended: latest-intent-wins holds for the `PlayerState` only — the
fields written synchronously before the suspension (`currentTrack`, `queue`,
`queueIndex`) keep the newer call B's values when A's resolution completes
late — but the transport is last-completion-wins: A's late completion
reassigns the source to A's URL and starts playing it. -/
theorem playSong_race_last_completion_wins (σ : SysState) (A B : Song)
    (qa qb : Option (List Song)) (ia ib : Option Int) (ua ub : String) :
    (resolveOkStep A ua (resolveOkStep B ub
        (playSongStart B qb ib (playSongStart A qa ia σ)))).ps.currentTrack = some B ∧
    (resolveOkStep A ua (resolveOkStep B ub
        (playSongStart B qb ib (playSongStart A qa ia σ)))).ps.queue = qb.getD [B] ∧
    (resolveOkStep A ua (resolveOkStep B ub
        (playSongStart B qb ib (playSongStart A qa ia σ)))).ps.queueIndex = ib.getD 0 ∧
    (resolveOkStep A ua (resolveOkStep B ub
        (playSongStart B qb ib (playSongStart A qa ia σ)))).audio.src = ua ∧
    (resolveOkStep A ua (resolveOkStep B ub
        (playSongStart B qb ib (playSongStart A qa ia σ)))).audio.paused = false := by
  refine ⟨?_, ?_, ?_, ?_, ?_⟩ <;>
    simp [playSongStart, playSongStartO]

/-- C8 counterexample: when `playSong(B)`'s resolution fails while another
track is audibly playing, the resulting state is **not** Idle: `isPlaying`
remains `true` (the `catch` in `player.ts` lines 138–141 only clears
`isLoading`), and the failed track stays as `currentTrack`. -/
theorem playSong_failure_not_idle :
    failPost.ps.isLoading = false ∧
    failPost.ps.isPlaying = true ∧
    failPost.ps.currentTrack = some songB := by
  refine ⟨rfl, rfl, rfl⟩

/-- C8 amended: on stream-URL-resolution failure (and likewise on
playback-start failure) `playSong` swallows the error — nothing propagates to
the caller, the failure is only logged — and clears `isLoading`; but
`isPlaying` keeps its prior value (so the state is Idle only if nothing was
already playing), and the failed song remains `currentTrack`. -/
theorem playSong_failure_clears_loading_only (σ : SysState) (s : Song)
    (q : Option (List Song)) (i : Option Int) (url : String) :
    (resolveErrStep (playSongStart s q i σ)).ps.isLoading = false ∧
    (resolveErrStep (playSongStart s q i σ)).ps.isPlaying = σ.ps.isPlaying ∧
    (resolveErrStep (playSongStart s q i σ)).ps.currentTrack = some s ∧
    (resolveErrStep (playSongStart s q i σ)).audio = σ.audio ∧
    (playFailStep url (playSongStart s q i σ)).ps.isLoading = false ∧
    (playFailStep url (playSongStart s q i σ)).ps.isPlaying = σ.ps.isPlaying :=
  ⟨rfl, rfl, rfl, rfl, rfl, rfl⟩

/-!
### Claims C9, C4
-/

/-- Evaluation lemma: a time report emits the submission scrobble when a track
is loaded, not yet scrobbled, the duration is positive and the threshold is
reached. -/
theorem timeupdate_emits {σ : SysState} {tr : Song} (t : ℚ)
    (h1 : σ.ps.currentTrack = some tr)
    (h2 : σ.scrobbledTrackId ≠ some tr.id)
    (h3 : 0 < σ.audio.duration)
    (h4 : min 240 (σ.audio.duration / 2) ≤ t) :
    timeupdateStep σ t =
      ({ σ with audio := { σ.audio with ctime := t }
                ps := { σ.ps with currentTime := t }
                scrobbledTrackId := some tr.id }, true) := by
  have h2s : some tr.id ≠ σ.scrobbledTrackId := Ne.symm h2
  have h4q : qmin 240 (halfQ σ.audio.duration) ≤ t := by
    rwa [scrobbleThreshold_eq]
  unfold timeupdateStep
  rw [h1]
  dsimp only
  rw [if_pos ⟨h2s, h3⟩, if_pos h4q]

/-- Evaluation lemma: no emission when the threshold is not reached. -/
theorem timeupdate_below_threshold {σ : SysState} (t : ℚ)
    (h4 : ¬ min 240 (σ.audio.duration / 2) ≤ t) :
    timeupdateStep σ t =
      ({ σ with audio := { σ.audio with ctime := t }
                ps := { σ.ps with currentTime := t } }, false) := by
  have h4q : ¬ qmin 240 (halfQ σ.audio.duration) ≤ t := by
    rwa [scrobbleThreshold_eq]
  unfold timeupdateStep
  cases h1 : σ.ps.currentTrack with
  | none => rfl
  | some tr =>
      dsimp only
      by_cases hc : some tr.id ≠ σ.scrobbledTrackId ∧ 0 < σ.audio.duration
      · rw [if_pos hc, if_neg h4q]
      · rw [if_neg hc]

/-- Evaluation lemma: no emission when the loaded track is already the
scrobbled one. -/
theorem timeupdate_already_scrobbled {σ : SysState} {tr : Song} (t : ℚ)
    (h1 : σ.ps.currentTrack = some tr)
    (h2 : σ.scrobbledTrackId = some tr.id) :
    timeupdateStep σ t =
      ({ σ with audio := { σ.audio with ctime := t }
                ps := { σ.ps with currentTime := t } }, false) := by
  unfold timeupdateStep
  rw [h1]
  dsimp only
  rw [if_neg]
  intro hc
  exact hc.1 h2.symm

/-- C9 counterexample: after `songA` was scrobbled, `playSong(songA)` — the
*same* track, recorded as scrobbled — still resets the scrobbled flag to
`null` (`player.ts` line 117 is unconditional), and a later time report past
the threshold emits a *second* submission for the same id with no other track
ever involved. -/
theorem scrobble_reset_on_same_track :
    scrobAfterPlay.scrobbledTrackId = some songA.id ∧
    (step scrobAfterPlay (Act.playSong songA none none)).scrobbledTrackId = none ∧
    (timeupdateStep scrobReplay 160).2 = true := by
  refine ⟨rfl, rfl, ?_⟩
  decide

/-- C9 amended: `playSong` resets the scrobbled flag *unconditionally*, even
when it targets the very track currently recorded as scrobbled; consequently
a replayed track can emit a further submission scrobble without having been
superseded by another track. -/
theorem playSong_scrobble_reset_unconditional (σ : SysState) (s : Song)
    (q : Option (List Song)) (i : Option Int) (url : String) (d t : ℚ) :
    (playSongStart s q i σ).scrobbledTrackId = none ∧
    (0 < d → min 240 (d / 2) ≤ t →
      (timeupdateStep
        (durationchangeStep (resolveOkStep s url (playSongStart s q i σ)) d) t).2 =
        true) := by
  refine ⟨rfl, fun hd ht => ?_⟩
  have h1 : (durationchangeStep (resolveOkStep s url (playSongStart s q i σ)) d).ps.currentTrack
      = some s := by
    simp [durationchangeStep, playSongStart, playSongStartO]
  have h2 : (durationchangeStep (resolveOkStep s url (playSongStart s q i σ)) d).scrobbledTrackId
      = none := by
    simp [durationchangeStep, playSongStart, playSongStartO]
  have h3 : (durationchangeStep (resolveOkStep s url (playSongStart s q i σ)) d).audio.duration
      = d := by
    simp [durationchangeStep]
  rw [timeupdate_emits t h1 (by rw [h2]; exact fun hc => Option.noConfusion hc)
    (by rw [h3]; exact hd) (by rw [h3]; exact ht)]

/-- C9 witness for the amended theorem: replay from any state (here the
initial one) at duration 300 and time report 200 emits. -/
theorem playSong_scrobble_reset_witness :
    (playSongStart songA none none initSys).scrobbledTrackId = none ∧
    (timeupdateStep
      (durationchangeStep (resolveOkStep songA "https-a"
        (playSongStart songA none none initSys)) 300) 200).2 = true :=
  ⟨(playSong_scrobble_reset_unconditional initSys songA none none "https-a" 300 200).1,
   (playSong_scrobble_reset_unconditional initSys songA none none "https-a" 300 200).2
     (by norm_num) (by norm_num [min_def])⟩

/-- C4: the spec-modelled `clearQueue` returns a snapshot capturing the prior
queue and index exactly when the queue was non-empty (`undefined` otherwise),
and `restoreQueueState` applied immediately to that snapshot reproduces the
prior `queue` and `queueIndex`. -/
theorem clearQueue_snapshot_roundtrip (σ : SysState) :
    (σ.ps.queue ≠ [] →
      ∃ snap, (specClearQueue σ).1 = some snap ∧
        snap.previousQueue = σ.ps.queue ∧
        snap.previousIndex = σ.ps.queueIndex ∧
        (restoreQueueState snap (specClearQueue σ).2).ps.queue = σ.ps.queue ∧
        (restoreQueueState snap (specClearQueue σ).2).ps.queueIndex = σ.ps.queueIndex) ∧
    (σ.ps.queue = [] → (specClearQueue σ).1 = none) := by
  constructor
  · intro h
    refine ⟨⟨σ.ps.queue, σ.ps.queueIndex⟩, ?_, rfl, rfl, ?_, ?_⟩ <;>
      simp [specClearQueue, h, restoreQueueState]
  · intro h
    simp [specClearQueue, h]

/-- Once the loaded track is recorded as scrobbled, no further time report
emits a submission for it. -/
theorem runFlags_blocked {tr : Song} :
    ∀ (ts : List ℚ) (σ : SysState),
      σ.ps.currentTrack = some tr → σ.scrobbledTrackId = some tr.id →
      runFlags σ ts = ts.map (fun _ => false) := by
  intro ts
  induction ts with
  | nil =>
      intro σ h1 h2
      rfl
  | cons t ts ih =>
      intro σ h1 h2
      show (timeupdateStep σ t).2 :: runFlags (timeupdateStep σ t).1 ts
          = (t :: ts).map (fun _ => false)
      rw [timeupdate_already_scrobbled t h1 h2]
      simp only [List.map_cons]
      exact congrArg (List.cons false) (ih _ h1 h2)

/-- While a not-yet-scrobbled track with positive duration is loaded, the
submission flags of a run of time reports mark exactly the first report that
reaches the threshold. -/
theorem runFlags_markFirst {tr : Song} :
    ∀ (ts : List ℚ) (σ : SysState),
      σ.ps.currentTrack = some tr → 0 < σ.audio.duration →
      σ.scrobbledTrackId ≠ some tr.id →
      runFlags σ ts =
        markFirst (ts.map fun t => decide (min 240 (σ.audio.duration / 2) ≤ t)) := by
  intro ts
  induction ts with
  | nil =>
      intro σ h1 h3 h2
      rfl
  | cons t ts ih =>
      intro σ h1 h3 h2
      show (timeupdateStep σ t).2 :: runFlags (timeupdateStep σ t).1 ts
          = markFirst ((t :: ts).map fun u => decide (min 240 (σ.audio.duration / 2) ≤ u))
      by_cases ht : min 240 (σ.audio.duration / 2) ≤ t
      · rw [timeupdate_emits t h1 h2 h3 ht]
        dsimp only
        have hb : runFlags { σ with
            audio := { σ.audio with ctime := t }
            ps := { σ.ps with currentTime := t }
            scrobbledTrackId := some tr.id } ts = ts.map (fun _ => false) :=
          runFlags_blocked ts _ h1 rfl
        rw [hb, List.map_cons, decide_eq_true ht]
        simp only [markFirst, eq_self_iff_true, if_true, List.map_map]
        rfl
      · rw [timeupdate_below_threshold t ht]
        simp only [List.map_cons, decide_eq_false ht, markFirst, Bool.false_eq_true,
          if_false]
        exact congrArg (List.cons false) (ih _ h1 h3 h2)

theorem count_markFirst (l : List Bool) :
    (markFirst l).count true = if l.any (fun b => b) then 1 else 0 := by
  induction l with
  | nil => rfl
  | cons b bs ih =>
      cases b
      · simp only [markFirst, Bool.false_eq_true, if_false, List.any_cons,
          Bool.false_or]
        rw [List.count_cons]
        simp [ih]
      · simp [markFirst, List.count_cons_self, List.count_replicate]

/-- C2: while a track with positive duration `d` is loaded and its id differs
from the already-scrobbled id, a run of time reports emits the submission
scrobble exactly once, at the first report whose time reaches
`min 240 (d * 0.5)` (no emission at all if none reaches it). -/
theorem scrobble_submission_once_at_threshold (σ : SysState) (tr : Song)
    (ts : List ℚ)
    (h1 : σ.ps.currentTrack = some tr)
    (h3 : 0 < σ.audio.duration)
    (h2 : σ.scrobbledTrackId ≠ some tr.id) :
    runFlags σ ts =
      markFirst (ts.map fun t => decide (min 240 (σ.audio.duration / 2) ≤ t)) ∧
    (runFlags σ ts).count true =
      (if ts.any (fun t => decide (min 240 (σ.audio.duration / 2) ≤ t)) then 1
       else 0) := by
  have hmain := runFlags_markFirst ts σ h1 h3 h2
  refine ⟨hmain, ?_⟩
  rw [hmain, count_markFirst]
  simp [List.any_map, Function.comp]

/-- C2 witness (Scenario C): duration 300, time reports at 100 then 160; the
submission fires exactly once, at the 160 report (threshold
`min 240 150 = 150`). -/
theorem scrobble_submission_witness : runFlags scrobQ [100, 160] = [false, true] := by
  have h := (scrobble_submission_once_at_threshold scrobQ songA [100, 160]
    (by decide) (by decide) (by decide)).1
  have hd : scrobQ.audio.duration = (300 : ℚ) := by decide
  have e1 : (decide (min 240 (scrobQ.audio.duration / 2) ≤ (100 : ℚ))) = false := by
    rw [hd, decide_eq_false_iff_not]
    norm_num [min_def]
  have e2 : (decide (min 240 (scrobQ.audio.duration / 2) ≤ (160 : ℚ))) = true := by
    rw [hd, decide_eq_true_eq]
    norm_num [min_def]
  rw [h]
  simp only [List.map_cons, List.map_nil, e1, e2]
  rfl

/-- C4 witness: the round-trip at a concrete non-empty queue. -/
theorem clearQueue_snapshot_roundtrip_witness :
    ∃ snap, (specClearQueue clearPre).1 = some snap ∧
      snap.previousQueue = clearPre.ps.queue ∧
      snap.previousIndex = clearPre.ps.queueIndex ∧
      (restoreQueueState snap (specClearQueue clearPre).2).ps.queue = clearPre.ps.queue ∧
      (restoreQueueState snap (specClearQueue clearPre).2).ps.queueIndex =
        clearPre.ps.queueIndex :=
  (clearQueue_snapshot_roundtrip clearPre).1 (by decide)

/-!
### Claims C5, C6
-/

@[simp]
theorem seekStep_ps (σ : SysState) (t : ℚ) : (seekStep σ t).ps = σ.ps := by
  unfold seekStep
  split <;> rfl

/-- C5: at the last index of a non-empty queue, the (spec-modelled) `playNext`
halts playback leaving `currentTrack` and `queueIndex` unchanged under
`Off`; transitions to index `0` (starting that track) under `All`; replays
the unchanged `queueIndex` under `One`.  The `playNext` actually present in
`player.ts` (lines 169–181) realizes exactly the `Off` column. -/
theorem playNext_boundary_repeat (σ : SysState) (r : RepeatMode)
    (hq : σ.ps.queue ≠ [])
    (hlast : σ.ps.queueIndex = (σ.ps.queue.length : Int) - 1) :
    (r = RepeatMode.off →
      (specPlayNext σ r).ps.currentTrack = σ.ps.currentTrack ∧
      (specPlayNext σ r).ps.queueIndex = σ.ps.queueIndex ∧
      (specPlayNext σ r).ps.isPlaying = false ∧
      (specPlayNext σ r).audio.paused = true) ∧
    (r = RepeatMode.all →
      (specPlayNext σ r).ps.queueIndex = 0 ∧
      (specPlayNext σ r).ps.isLoading = true ∧
      ∃ s, listGetI σ.ps.queue 0 = some s ∧
        (specPlayNext σ r).ps.currentTrack = some s) ∧
    (r = RepeatMode.one →
      (specPlayNext σ r).ps.queueIndex = σ.ps.queueIndex ∧
      (specPlayNext σ r).ps.isLoading = true ∧
      ∃ s, listGetI σ.ps.queue σ.ps.queueIndex = some s ∧
        (specPlayNext σ r).ps.currentTrack = some s) ∧
    playNextStep σ = specPlayNext σ RepeatMode.off := by
  have hlen : 0 < σ.ps.queue.length := List.length_pos.mpr hq
  have hnotlt : ¬ (σ.ps.queueIndex + 1 < (σ.ps.queue.length : Int)) := by omega
  have hoff : specPlayNext σ RepeatMode.off =
      pauseStep { σ with ps := { σ.ps with isPlaying := false } } := by
    unfold specPlayNext computeNext
    rw [if_neg hq,
      if_neg (by simp : ¬ (RepeatMode.off = RepeatMode.one)),
      if_neg hnotlt,
      if_neg (by simp : ¬ (RepeatMode.off = RepeatMode.all))]
  refine ⟨?_, ?_, ?_, ?_⟩
  · intro hr
    subst hr
    rw [hoff]
    exact ⟨rfl, rfl, rfl, rfl⟩
  · intro hr
    subst hr
    obtain ⟨s, hs⟩ := listGetI_isSome σ.ps.queue 0 le_rfl (by exact_mod_cast hlen)
    have hall : specPlayNext σ RepeatMode.all =
        playSongStart s (some σ.ps.queue) (some 0) σ := by
      unfold specPlayNext computeNext
      rw [if_neg hq,
        if_neg (by simp : ¬ (RepeatMode.all = RepeatMode.one)),
        if_neg hnotlt,
        if_pos rfl]
      dsimp only
      rw [hs]
    rw [hall]
    exact ⟨rfl, rfl, s, hs, rfl⟩
  · intro hr
    subst hr
    obtain ⟨s, hs⟩ := listGetI_isSome σ.ps.queue σ.ps.queueIndex (by omega) (by omega)
    have hone : specPlayNext σ RepeatMode.one =
        playSongStart s (some σ.ps.queue) (some σ.ps.queueIndex) σ := by
      unfold specPlayNext computeNext
      rw [if_neg hq, if_pos rfl]
      dsimp only
      rw [hs]
    rw [hone]
    exact ⟨rfl, rfl, s, hs, rfl⟩
  · rw [hoff]
    unfold playNextStep
    rw [if_neg hq]
    dsimp only
    rw [if_neg hnotlt]

/-- C5 witness: at the last index under `All`, the spec-modelled `playNext`
transitions to index 0 and starts loading. -/
theorem playNext_boundary_witness :
    (specPlayNext lastIdxSt RepeatMode.all).ps.queueIndex = 0 ∧
    (specPlayNext lastIdxSt RepeatMode.all).ps.isLoading = true := by
  have h := ((playNext_boundary_repeat lastIdxSt RepeatMode.all (by decide)
    (by decide)).2.1) rfl
  exact ⟨h.1, h.2.1⟩

/-- C6: on a non-empty queue with a valid cursor, `playPrevious` with
`currentTime > 3` restarts the current track at transport position 0 without
changing `queueIndex` or `currentTrack`; with `currentTime ≤ 3` it moves the
cursor to `queueIndex - 1` bounded below at `0`, never wrapping to the tail —
for every ambient repeat mode, since the source `playPrevious`
(`player.ts` 183–200) consults no repeat state. -/
theorem playPrevious_restart_or_backstep (σ : SysState) (r : RepeatMode)
    (hq : σ.ps.queue ≠ [])
    (hi : 0 ≤ σ.ps.queueIndex) :
    (3 < σ.ps.currentTime → σ.audio.src ≠ "" →
      (playPreviousR σ r).1.audio.ctime = 0 ∧
      (playPreviousR σ r).1.ps.queueIndex = σ.ps.queueIndex ∧
      (playPreviousR σ r).1.ps.currentTrack = σ.ps.currentTrack) ∧
    (σ.ps.currentTime ≤ 3 →
      (playPreviousR σ r).1.ps.queueIndex = max 0 (σ.ps.queueIndex - 1)) := by
  constructor
  · intro h3 hsrc
    show (playPreviousStep σ).audio.ctime = 0 ∧
      (playPreviousStep σ).ps.queueIndex = σ.ps.queueIndex ∧
      (playPreviousStep σ).ps.currentTrack = σ.ps.currentTrack
    unfold playPreviousStep
    rw [if_neg hq, if_pos h3]
    unfold seekStep
    rw [if_pos hsrc]
    refine ⟨?_, rfl, rfl⟩
    show qmax 0 (qmin σ.audio.duration 0) = 0
    rw [qmax_eq_max, qmin_eq_min]
    exact max_eq_left (min_le_right _ _)
  · intro h3
    show (playPreviousStep σ).ps.queueIndex = max 0 (σ.ps.queueIndex - 1)
    unfold playPreviousStep
    rw [if_neg hq, if_neg (not_lt.mpr h3)]
    dsimp only
    by_cases hp : 0 ≤ σ.ps.queueIndex - 1
    · rw [if_pos hp]
      rw [max_eq_right hp]
      cases hgs : listGetI σ.ps.queue (σ.ps.queueIndex - 1) with
      | some s => rfl
      | none => rfl
    · rw [if_neg hp, seekStep_ps]
      rw [max_eq_left (by omega : σ.ps.queueIndex - 1 ≤ 0)]
      omega

/-- C6 witness (Scenario B, second half): `currentTime = 1 ≤ 3` at index 2
moves to index 1, also under repeat `All`. -/
theorem playPrevious_backstep_witness :
    (playPreviousR prevSt RepeatMode.all).1.ps.queueIndex = 1 := by
  have h := (playPrevious_restart_or_backstep prevSt RepeatMode.all (by decide)
    (by decide)).2 (by decide)
  rw [h, max_eq_right (by decide : (0 : Int) ≤ prevSt.ps.queueIndex - 1)]
  decide

/-!
### Claim C3: the reachable-state invariant
-/

theorem inv_of_eq {σ σ' : SysState} (h : Inv σ)
    (h1 : σ'.ps.currentTrack = σ.ps.currentTrack)
    (h2 : σ'.ps.queue = σ.ps.queue)
    (h3 : σ'.ps.queueIndex = σ.ps.queueIndex)
    (h4 : σ'.ps.volume = σ.ps.volume) : Inv σ' := by
  unfold Inv at h ⊢
  rw [h1, h2, h3, h4]
  exact h

theorem inv_playSongStart {σ : SysState} (h : Inv σ) (s : Song)
    (q : Option (List Song)) (i : Option Int) {u : Song}
    (hu : listGetI (q.getD [s]) (i.getD 0) = some u) (hid : u.id = s.id) :
    Inv (playSongStart s q i σ) := by
  obtain ⟨h0, h1⟩ := listGetI_bounds hu
  refine ⟨⟨fun hc => Option.noConfusion hc,
    fun hc => absurd (show i.getD 0 = -1 from hc) (by omega)⟩,
    h.2.1, h.2.2.1, ?_⟩
  intro t ht
  have hst : s = t := Option.some.inj ht
  exact ⟨h0, h1, u, hu, by rw [hid, hst]⟩

theorem inv_playNextStep {σ : SysState} (h : Inv σ) : Inv (playNextStep σ) := by
  unfold playNextStep
  by_cases hq : σ.ps.queue = []
  · rw [if_pos hq]
    exact h
  · rw [if_neg hq]
    dsimp only
    by_cases hlt : σ.ps.queueIndex + 1 < (σ.ps.queue.length : Int)
    · rw [if_pos hlt]
      have h0 : 0 ≤ σ.ps.queueIndex + 1 := by
        rcases hct : σ.ps.currentTrack with _ | t
        · have := h.1.mp hct
          omega
        · have := (h.2.2.2 t hct).1
          omega
      obtain ⟨u, hu⟩ := listGetI_isSome σ.ps.queue (σ.ps.queueIndex + 1) h0 hlt
      rw [hu]
      exact inv_playSongStart h u _ _ hu rfl
    · rw [if_neg hlt]
      exact inv_of_eq h rfl rfl rfl rfl

theorem inv_playPreviousStep {σ : SysState} (h : Inv σ) :
    Inv (playPreviousStep σ) := by
  unfold playPreviousStep
  by_cases hq : σ.ps.queue = []
  · rw [if_pos hq]
    exact h
  · rw [if_neg hq]
    by_cases h3 : 3 < σ.ps.currentTime
    · rw [if_pos h3]
      exact inv_of_eq h (by rw [seekStep_ps]) (by rw [seekStep_ps])
        (by rw [seekStep_ps]) (by rw [seekStep_ps])
    · rw [if_neg h3]
      dsimp only
      by_cases hp : 0 ≤ σ.ps.queueIndex - 1
      · rw [if_pos hp]
        rcases hct : σ.ps.currentTrack with _ | t
        · exfalso
          have := h.1.mp hct
          omega
        · have hb := (h.2.2.2 t hct).2.1
          obtain ⟨u, hu⟩ := listGetI_isSome σ.ps.queue (σ.ps.queueIndex - 1) hp
            (by omega)
          rw [hu]
          exact inv_playSongStart h u _ _ hu rfl
      · rw [if_neg hp]
        exact inv_of_eq h (by rw [seekStep_ps]) (by rw [seekStep_ps])
          (by rw [seekStep_ps]) (by rw [seekStep_ps])

theorem inv_playAlbumStep {σ : SysState} (h : Inv σ) (songs : List Song)
    (i : Int) (hg : goodAct (.playAlbum songs i) = true) :
    Inv (playAlbumStep songs i σ) := by
  unfold playAlbumStep
  by_cases hqe : songs = []
  · rw [if_pos hqe]
    exact h
  · rw [if_neg hqe]
    have hsome : ∃ u, listGetI songs i = some u := by
      simp only [goodAct, Bool.or_eq_true, List.isEmpty_iff] at hg
      rcases hg with hL | hR
      · exact absurd hL hqe
      · exact Option.isSome_iff_exists.mp hR
    obtain ⟨u, hu⟩ := hsome
    rw [hu]
    exact inv_playSongStart h u _ _ hu rfl

theorem inv_setVolumeStep {σ : SysState} (h : Inv σ) (v : ℚ) :
    Inv (setVolumeStep σ v) := by
  unfold setVolumeStep
  dsimp only
  refine ⟨h.1, ?_, ?_, h.2.2.2⟩
  · show (0 : ℚ) ≤ qmax 0 (qmin 1 v)
    rw [qmax_eq_max]
    exact le_max_left 0 _
  · show qmax 0 (qmin 1 v) ≤ 1
    rw [qmax_eq_max, qmin_eq_min]
    exact max_le (by norm_num) (min_le_left _ _)

theorem inv_addToQueueStep {σ : SysState} (h : Inv σ) (songs : List Song) :
    Inv (addToQueueStep σ songs) := by
  refine ⟨h.1, h.2.1, h.2.2.1, ?_⟩
  intro t ht
  obtain ⟨hb0, hb1, u, hu, hid⟩ := h.2.2.2 t ht
  refine ⟨hb0, ?_, u, listGetI_append songs hu, hid⟩
  show σ.ps.queueIndex < ((σ.ps.queue ++ songs).length : Int)
  rw [List.length_append]
  push_cast
  omega

theorem inv_clearQueueStep (σ : SysState) : Inv (clearQueueStep σ) := by
  refine ⟨⟨fun _ => rfl, fun _ => rfl⟩, ?_, ?_, ?_⟩
  · show (0 : ℚ) ≤ 1
    norm_num
  · show (1 : ℚ) ≤ 1
    norm_num
  · intro t ht
    exact Option.noConfusion ht

theorem inv_timeupdateStep {σ : SysState} (h : Inv σ) (t : ℚ) :
    Inv ((timeupdateStep σ t).1) := by
  unfold timeupdateStep
  cases hct : σ.ps.currentTrack with
  | none => exact inv_of_eq h rfl rfl rfl rfl
  | some tr =>
      dsimp only
      by_cases hc : some tr.id ≠ σ.scrobbledTrackId ∧ 0 < σ.audio.duration
      · rw [if_pos hc]
        by_cases ht : qmin 240 (halfQ σ.audio.duration) ≤ t
        · rw [if_pos ht]
          exact inv_of_eq h rfl rfl rfl rfl
        · rw [if_neg ht]
          exact inv_of_eq h rfl rfl rfl rfl
      · rw [if_neg hc]
        exact inv_of_eq h rfl rfl rfl rfl

theorem inv_step {σ : SysState} (h : Inv σ) (a : Act)
    (hg : goodAct a = true) : Inv (step σ a) := by
  cases a with
  | playSong s q i =>
      have hex : ∃ u, listGetI (q.getD [s]) (i.getD 0) = some u ∧ u.id = s.id := by
        simp only [goodAct] at hg
        cases hgs : listGetI (q.getD [s]) (i.getD 0) with
        | none =>
            rw [hgs] at hg
            exact absurd hg (by simp)
        | some u =>
            rw [hgs] at hg
            exact ⟨u, rfl, by simpa using hg⟩
      obtain ⟨u, hu, hid⟩ := hex
      exact inv_playSongStart h s q i hu hid
  | resolveOk s url => exact inv_of_eq h rfl rfl rfl rfl
  | resolvePlayFail url => exact inv_of_eq h rfl rfl rfl rfl
  | resolveErr => exact inv_of_eq h rfl rfl rfl rfl
  | playAlbum songs i => exact inv_playAlbumStep h songs i hg
  | togglePlayPause =>
      show Inv (togglePlayPauseStep σ)
      unfold togglePlayPauseStep playStep
      split
      · exact inv_of_eq h rfl rfl rfl rfl
      · split
        · exact inv_of_eq h rfl rfl rfl rfl
        · exact h
  | doPlay =>
      show Inv (playStep σ)
      unfold playStep
      split
      · exact inv_of_eq h rfl rfl rfl rfl
      · exact h
  | doPause => exact inv_of_eq h rfl rfl rfl rfl
  | playNext => exact inv_playNextStep h
  | playPrevious => exact inv_playPreviousStep h
  | seek t =>
      show Inv (seekStep σ t)
      unfold seekStep
      split
      · exact inv_of_eq h rfl rfl rfl rfl
      · exact h
  | setVolume v => exact inv_setVolumeStep h v
  | addToQueue songs => exact inv_addToQueueStep h songs
  | clearQueue => exact inv_clearQueueStep σ
  | evTimeupdate t => exact inv_timeupdateStep h t
  | evDurationchange d => exact inv_of_eq h rfl rfl rfl rfl
  | evEnded => exact inv_playNextStep h
  | evPlaying => exact inv_of_eq h rfl rfl rfl rfl
  | evPause => exact inv_of_eq h rfl rfl rfl rfl
  | evWaiting => exact inv_of_eq h rfl rfl rfl rfl
  | evCanplay => exact inv_of_eq h rfl rfl rfl rfl
  | evError => exact inv_of_eq h rfl rfl rfl rfl

theorem inv_initSys : Inv initSys := by
  refine ⟨⟨fun _ => rfl, fun _ => rfl⟩, ?_, ?_, ?_⟩
  · show (0 : ℚ) ≤ 1
    norm_num
  · show (1 : ℚ) ≤ 1
    norm_num
  · intro t ht
    exact Option.noConfusion ht

theorem inv_run :
    ∀ (acts : List Act) (σ : SysState), Inv σ →
      (∀ a ∈ acts, goodAct a = true) → Inv (run σ acts) := by
  intro acts
  induction acts with
  | nil =>
      intro σ h _
      exact h
  | cons a acts ih =>
      intro σ h hg
      show Inv (run (step σ a) acts)
      exact ih _ (inv_step h a (hg a (List.mem_cons_self a acts)))
        (fun b hb => hg b (List.mem_cons_of_mem a hb))

/-- C3 counterexample: the exported `playSong` accepts arbitrary arguments;
`playSong(songA, undefined, -1)` reaches (in one step from the initial state)
a state with `currentTrack = songA` but `queueIndex = -1`, violating the
claimed invariant `currentTrack = null ⇔ queueIndex = -1` (and the cursor
bounds). -/
theorem reachable_invariant_violated :
    (run initSys badTrace).ps.currentTrack = some songA ∧
    (run initSys badTrace).ps.queueIndex = -1 ∧
    ¬ Inv (run initSys badTrace) := by
  refine ⟨rfl, rfl, fun hInv => ?_⟩
  have hc := hInv.1.mpr rfl
  exact absurd hc (by decide)

/-- C3 amended: the invariant — `currentTrack = null ⇔ queueIndex = -1`,
`volume ∈ [0,1]`, and a valid cursor naming the current track — holds in
every state reachable from the initial state by interaction sequences whose
`playSong`/`playAlbum` arguments are well-formed (in-bounds start index
naming the given song, as every caller in the repository passes them);
with fully arbitrary arguments it fails (see the counterexample). -/
theorem player_invariant_wellformed (acts : List Act)
    (hg : ∀ a ∈ acts, goodAct a = true) : Inv (run initSys acts) :=
  inv_run acts initSys inv_initSys hg

/-- C3 witness: the invariant holds after running the representative
well-formed trace. -/
theorem player_invariant_witness : Inv (run initSys goodTrace) :=
  player_invariant_wellformed goodTrace (by decide)

end Slothsonic
